import Mathlib

/-!
Verification development for the market-data core of the trading-bot
monorepo: a shallow embedding of the Kraken protocol client
(`services/market-data/app/kraken_client.py`), the pair-catalog
filter/search/pagination query (`services/market-data/app/main.py`,
`get_kraken_pairs`), the ingestion and symbol-sync orchestration
(`fetch_kraken_ohlc`, `sync_kraken_symbols`), the database access layer
(`database_client.py`, `TradingBotDatabase`), and the Redis cache wrapper
(`shared/cache/redis_client.py`).

Python floats are modelled as rationals (the values flowing through the
parsers are decimal strings and small integers, and the code performs no
precision-sensitive float manipulation); Python `None` becomes `Option`;
dictionaries keyed by pair name become association lists.
-/

namespace TradingBot

/-! ### Python string primitives

ASCII case mapping and substring tests, mirroring `str.lower`, `str.upper`
and the `in` operator on the ASCII data that flows through this code.
-/

/-- ASCII lower-casing of one character (`str.lower` on the ASCII range). -/
def charLower (c : Char) : Char :=
  if 65 ≤ c.toNat ∧ c.toNat ≤ 90 then Char.ofNat (c.toNat + 32) else c

/-- ASCII upper-casing of one character (`str.upper` on the ASCII range). -/
def charUpper (c : Char) : Char :=
  if 97 ≤ c.toNat ∧ c.toNat ≤ 122 then Char.ofNat (c.toNat - 32) else c

/-- Python `s.lower()` over the string's characters. -/
def strLower (s : String) : String := ⟨s.data.map charLower⟩

/-- Python `s.upper()` over the string's characters. -/
def strUpper (s : String) : String := ⟨s.data.map charUpper⟩

/-- Does `pre` occur at the head of `l`? -/
def listIsPrefixOf : List Char → List Char → Bool
  | [], _ => true
  | _ :: _, [] => false
  | a :: as, b :: bs => decide (a = b) && listIsPrefixOf as bs

/-- Does `needle` occur as a contiguous run inside `hay`? -/
def listContainsSub (needle : List Char) : List Char → Bool
  | [] => needle.isEmpty
  | c :: t => listIsPrefixOf needle (c :: t) || listContainsSub needle t

/-- Python `needle in hay` on strings: contiguous-substring test. -/
def strContains (hay needle : String) : Bool :=
  listContainsSub needle.data hay.data

/-- Code-point lexicographic `≤` on character lists, the order Python's
string comparison and `sorted` use. -/
def lexLe : List Char → List Char → Bool
  | [], _ => true
  | _ :: _, [] => false
  | a :: as, b :: bs =>
    if a.toNat < b.toNat then true
    else if b.toNat < a.toNat then false
    else lexLe as bs

/-- Lexicographic `≤` on strings (Python's default string ordering). -/
def strLe (a b : String) : Prop := lexLe a.data b.data = true

instance : DecidableRel strLe := fun a b => by
  unfold strLe; infer_instance

/-! ### Python numeric primitives -/

/-- A scalar JSON value as Python sees it: a number or a string.  This is
the type of the ticker's `o` field, which the source guards with a
`try/except` around `float(...)`. -/
inductive PyScalar where
  | num (q : ℚ)
  | pstr (s : String)
deriving DecidableEq

/-- Python truthiness of a scalar: `0` and `""` are falsy. -/
def pyTruthy : PyScalar → Bool
  | .num q => decide (q ≠ 0)
  | .pstr s => decide (s ≠ "")

/-- A parsed decimal literal: sign, units, fractional digits value, and
the number of fractional digits. -/
structure PyDecimal where
  neg : Bool
  units : Nat
  frac : Nat
  fracLen : Nat
deriving DecidableEq

/-- Accumulate a digit run into a natural number. -/
def digitsToNat : List Char → Nat → Nat
  | [], acc => acc
  | c :: cs, acc => digitsToNat cs (acc * 10 + (c.toNat - 48))

/-- Parse `[sign] digits [. digits]` (the decimal forms Python's `float`
accepts for the numeric strings this API sends); anything else fails. -/
def parseDecimalChars (cs : List Char) : Option PyDecimal :=
  let signed : Bool × List Char :=
    match cs with
    | '-' :: t => (true, t)
    | '+' :: t => (false, t)
    | t => (false, t)
  let intPart := signed.2.takeWhile Char.isDigit
  let afterInt := signed.2.dropWhile Char.isDigit
  match afterInt with
  | [] => if intPart.isEmpty then none else some ⟨signed.1, digitsToNat intPart 0, 0, 0⟩
  | '.' :: t =>
    let fracPart := t.takeWhile Char.isDigit
    let afterFrac := t.dropWhile Char.isDigit
    if afterFrac.isEmpty ∧ (intPart.isEmpty = false ∨ fracPart.isEmpty = false) then
      some ⟨signed.1, digitsToNat intPart 0, digitsToNat fracPart 0, fracPart.length⟩
    else none
  | _ => none

/-- The rational value of a parsed decimal literal. -/
def pyDecValue (d : PyDecimal) : ℚ :=
  let mag : ℚ := (d.units : ℚ) + (d.frac : ℚ) / ((10 : ℚ) ^ d.fracLen)
  if d.neg then -mag else mag

/-- Python `float(s)` on a string: `some` value on the decimal forms,
`none` (an exception in the source) otherwise. -/
def pyFloatOfString (s : String) : Option ℚ :=
  (parseDecimalChars s.data).map pyDecValue

/-- Python `float(x)` on a scalar: numbers pass through, strings are
parsed, failure is `none` (an exception in the source). -/
def pyFloatOfScalar : PyScalar → Option ℚ
  | .num q => some q
  | .pstr s => pyFloatOfString s

/-- Python `int(x)` on a float: truncation toward zero. -/
def pyIntTrunc (q : ℚ) : ℤ :=
  if 0 ≤ q then ⌊q⌋ else ⌈q⌉

/-! ### UTC calendar rendering of an epoch timestamp

`datetime.fromtimestamp(ts, tz=timezone.utc)` turns epoch seconds into a
UTC calendar instant; this is the standard civil-from-days conversion,
here for non-negative epochs (all timestamps this feed produces).
-/

/-- A UTC calendar instant. -/
structure UTCTime where
  year : Nat
  month : Nat
  day : Nat
  hour : Nat
  minute : Nat
  second : Nat
deriving DecidableEq

/-- Gregorian date of a day count since 1970-01-01 (non-negative). -/
def civilFromEpochDays (z : Nat) : Nat × Nat × Nat :=
  let zs := z + 719468
  let era := zs / 146097
  let doe := zs % 146097
  let yoe := (doe - doe / 1460 + doe / 36524 - doe / 146097) / 365
  let y := yoe + era * 400
  let doy := doe - (365 * yoe + yoe / 4 - yoe / 100)
  let mp := (5 * doy + 2) / 153
  let d := doy - (153 * mp + 2) / 5 + 1
  let m := if mp < 10 then mp + 3 else mp - 9
  (if m ≤ 2 then y + 1 else y, m, d)

/-- UTC calendar instant of a non-negative epoch-seconds value. -/
def epochToUTC (n : Nat) : UTCTime :=
  let days := n / 86400
  let sod := n % 86400
  let ymd := civilFromEpochDays days
  ⟨ymd.1, ymd.2.1, ymd.2.2, sod / 3600, sod % 3600 / 60, sod % 60⟩

/-! ### Exchange protocol client (`kraken_client.py`) -/

/-- Table `KrakenClient.TIMEFRAME_MAP`: timeframe label to interval minutes. -/
def TIMEFRAME_MAP : List (String × Nat) :=
  [("1m", 1), ("5m", 5), ("15m", 15), ("30m", 30), ("1h", 60),
   ("4h", 240), ("1d", 1440), ("1w", 10080), ("1M", 21600)]

/-- Method `KrakenClient.get_timeframe_interval`: static lookup, default 60. -/
def getTimeframeInterval (timeframe : String) : Nat :=
  ((TIMEFRAME_MAP.find? (fun e => decide (e.1 = timeframe))).map Prod.snd).getD 60

/-- The `mappings` table inside `KrakenClient.normalize_pair`. -/
def pairMappings : List (String × String) :=
  [("BTC", "XBT"), ("BTCUSD", "XBTUSD"), ("BTCUSDT", "XBTUSDT"),
   ("ETHUSD", "ETHUSD"), ("ETHUSDT", "ETHUSDT")]

/-- The cleaning step of `normalize_pair`:
`pair.replace("/", "").replace("-", "").upper()` (replacing by the empty
string deletes every occurrence of the character). -/
def cleanPair (pair : String) : String :=
  strUpper ⟨(pair.data.filter (fun c => decide (c ≠ '/'))).filter (fun c => decide (c ≠ '-'))⟩

/-- Method `KrakenClient.normalize_pair`: strip separators, upper-case, rewrite
through the static alias table, fall back to the cleaned input. -/
def normalizePair (pair : String) : String :=
  let cleaned := cleanPair pair
  match pairMappings.find? (fun e => decide (e.1 = cleaned)) with
  | some e => e.2
  | none => cleaned

/-- One parsed OHLCV bar, as built by `KrakenClient.parse_ohlc_data`
(the dictionary appended to `parsed_data`). `timestamp` is the UTC
instant as epoch seconds. -/
structure MarketDataPoint where
  timestamp : ℤ
  «open» : ℚ
  high : ℚ
  low : ℚ
  close : ℚ
  volume : ℚ
  adjusted_close : ℚ
  time_frame : String
  data_source : String
  pair : String
deriving DecidableEq

/-- One iteration of the `parse_ohlc_data` loop: rows shorter than 8
fields are skipped (`continue`), otherwise the fields are read by
position — `[time, open, high, low, close, vwap, volume, count]` —
with volume at index 6 and `adjusted_close` a copy of `close`. -/
def parseOhlcRow (timeframe pair : String) (record : List ℚ) : Option MarketDataPoint :=
  if record.length < 8 then none
  else some
    { timestamp := pyIntTrunc (record.getD 0 0)
      «open» := record.getD 1 0
      high := record.getD 2 0
      low := record.getD 3 0
      close := record.getD 4 0
      volume := record.getD 6 0
      adjusted_close := record.getD 4 0
      time_frame := timeframe
      data_source := "kraken"
      pair := pair }

/-- Method `KrakenClient.parse_ohlc_data`: the loop over raw rows, keeping the
rows the per-row step accepts, in order. -/
def parseOhlcData (ohlcData : List (List ℚ)) (timeframe pair : String) :
    List MarketDataPoint :=
  ohlcData.filterMap (parseOhlcRow timeframe pair)

/-- The raw ticker payload for one pair: optional sub-arrays `a`, `b`,
`c`, `v`, `h` (entries modelled by their numeric values) and the raw
`o` reference-open field, which the source coerces defensively. -/
structure TickerRaw where
  a : Option (List ℚ)
  b : Option (List ℚ)
  c : Option (List ℚ)
  v : Option (List ℚ)
  h : Option (List ℚ)
  o : Option PyScalar
deriving DecidableEq

/-- The dictionary returned by `KrakenClient.parse_ticker_data`. -/
structure TickerParsed where
  price : ℚ
  bid : Option ℚ
  ask : Option ℚ
  volume_24h : Option ℤ
  change_24h : Option ℚ
  change_percent_24h : Option ℚ
  data_source : String
  pair : String
deriving DecidableEq

/-- The coerced reference open price of `parse_ticker_data`:
`open_price_raw = ticker_data.get("o", 0)`, then
`float(open_price_raw) if open_price_raw else None` inside a
`try/except` that degrades coercion failure to `None`. -/
def openCoerced (t : TickerRaw) : Option ℚ :=
  let raw := t.o.getD (.num 0)
  if pyTruthy raw then pyFloatOfScalar raw else none

/-- Method `KrakenClient.parse_ticker_data`: defaults for missing sub-arrays,
head/second-element reads, the guarded open-price coercion, the derived
24h change fields, and the truthiness-gated `int(...)` on volume. -/
def parseTickerData (t : TickerRaw) (pair : String) : TickerParsed :=
  let ask := t.a.getD [0, 0, 0]
  let bid := t.b.getD [0, 0, 0]
  let close := t.c.getD [0, 0]
  let volume := t.v.getD [0, 0]
  let currentPrice : ℚ := match close with | [] => 0 | x :: _ => x
  let askPrice : Option ℚ := match ask with | [] => none | x :: _ => some x
  let bidPrice : Option ℚ := match bid with | [] => none | x :: _ => some x
  let volume24h : Option ℚ :=
    if 1 < volume.length then some (volume.getD 1 0) else none
  let openPrice := openCoerced t
  let change24h : Option ℚ := openPrice.map (fun op => currentPrice - op)
  let changePercent24h : Option ℚ :=
    match openPrice with
    | some op => if 0 < op then some ((currentPrice - op) / op * 100) else none
    | none => none
  { price := currentPrice
    bid := bidPrice
    ask := askPrice
    volume_24h :=
      match volume24h with
      | some q => if q ≠ 0 then some (pyIntTrunc q) else none
      | none => none
    change_24h := change24h
    change_percent_24h := changePercent24h
    data_source := "kraken"
    pair := pair }

/-! ### Pair-catalog query layer (`main.py`, `get_kraken_pairs`)

The filter / search / sort / paginate pipeline applied to the pair
catalog after it has been obtained (from the cache or the exchange).
The catalog — a Python dict keyed by the native pair code — is an
association list; `sorted(...)` is rendered by an insertion sort under
the same code-point lexicographic order, which (being a sorted
permutation) agrees with any correct sort of the keys.
-/

/-- The per-pair metadata the endpoint reads from a raw catalog entry
(each field via `.get`, so each may be absent). -/
structure PairInfo where
  wsname : Option String
  altname : Option String
  base : Option String
  quote : Option String
  status : Option String
deriving DecidableEq

instance : Inhabited PairInfo := ⟨⟨none, none, none, none, none⟩⟩

/-- The pair catalog: a dict keyed by native pair code. -/
abbrev PairCatalog := List (String × PairInfo)

/-- Status filtering (`if status and status != "all"`): a missing or
empty or `"all"` filter passes everything, any other value keeps the
entries whose status equals it. -/
def statusFiltered (pairs : PairCatalog) (status : Option String) : PairCatalog :=
  match status with
  | none => pairs
  | some s =>
    if s = "" ∨ s = "all" then pairs
    else pairs.filter (fun e => decide (e.2.status = some s))

/-- The expanded search-term list: the lower-cased term, plus `"xdg"`
when it contains `"doge"`, plus `"xbt"` when it contains `"btc"` but
not `"xbt"`. -/
def searchTerms (search : String) : List String :=
  let sl := strLower search
  [sl]
    ++ (if strContains sl "doge" then ["xdg"] else [])
    ++ (if strContains sl "btc" && !strContains sl "xbt" then ["xbt"] else [])

/-- Does a catalog entry match any of the search terms?  Each term is
tested as a substring of the lower-cased native code, `wsname`,
`altname`, `base` and `quote` fields (missing fields default to `""`). -/
def entryMatches (terms : List String) (name : String) (info : PairInfo) : Bool :=
  terms.any (fun term =>
    strContains (strLower name) term
    || strContains (strLower (info.wsname.getD "")) term
    || strContains (strLower (info.altname.getD "")) term
    || strContains (strLower (info.base.getD "")) term
    || strContains (strLower (info.quote.getD "")) term)

/-- Search filtering (`if search:`): a missing or empty term passes
everything, otherwise only matching entries are kept. -/
def searchFiltered (pairs : PairCatalog) (search : Option String) : PairCatalog :=
  match search with
  | none => pairs
  | some s =>
    if s = "" then pairs
    else pairs.filter (fun e => entryMatches (searchTerms s) e.1 e.2)

/-- The filtered catalog: status filter, then search filter. -/
def filteredPairs (pairs : PairCatalog) (status search : Option String) : PairCatalog :=
  searchFiltered (statusFiltered pairs status) search

/-- Spec-side characterization of a search term, written from the spec's
words for comparison with the source-derived `searchTerms`: the
lower-cased term itself; `"xdg"` when the term contains `"doge"`; and
`"xbt"` when the term contains `"btc"` but not `"xbt"`. -/
def specIsSearchTerm (search term : String) : Prop :=
  term = strLower search ∨
  (term = "xdg" ∧ strContains (strLower search) "doge" = true) ∨
  (term = "xbt" ∧ strContains (strLower search) "btc" = true ∧
    strContains (strLower search) "xbt" = false)

/-- Spec-side characterization of a matching catalog entry, written from
the spec's words for comparison with the source-derived filter: some
search term occurs as a case-insensitive substring of the native code,
display name, alt name, base asset or quote asset. -/
def specMatchesSearch (search name : String) (info : PairInfo) : Prop :=
  ∃ term, specIsSearchTerm search term ∧
    ∃ f ∈ [name, info.wsname.getD "", info.altname.getD "",
           info.base.getD "", info.quote.getD ""],
      strContains (strLower f) term = true

/-- Step `sorted(filtered_pairs.keys())`: the filtered native codes in
ascending code-point lexicographic order. -/
def sortedPairKeys (pairs : PairCatalog) (status search : Option String) : List String :=
  List.insertionSort strLe ((filteredPairs pairs status search).map Prod.fst)

/-- One enriched entry of `pairs_detail`. -/
structure PairDetail where
  pair : String
  name : String
  altname : String
  base : String
  quote : String
  status : String
deriving DecidableEq

/-- Python `a or b` for an optional string: `a` when present and
non-empty, else `b`. -/
def pyOrStr (a : Option String) (b : String) : String :=
  match a with
  | some s => if s = "" then b else s
  | none => b

/-- The enriched record built for one paginated pair name:
`pair_info.get("wsname") or pair_info.get("altname") or pair_name`
for the display name, with per-field defaults. -/
def pairDetailOf (filtered : PairCatalog) (name : String) : PairDetail :=
  let info := ((filtered.find? (fun e => decide (e.1 = name))).map Prod.snd).getD default
  { pair := name
    name := pyOrStr info.wsname (pyOrStr info.altname name)
    altname := info.altname.getD name
    base := info.base.getD ""
    quote := info.quote.getD ""
    status := info.status.getD "unknown" }

/-- The response assembled by `get_kraken_pairs` (counts, key list,
detail list, pagination block). -/
structure PairsQueryResult where
  total_pairs : Nat
  active_pairs : Nat
  filtered_pairs : Nat
  pairs : List String
  pairs_detail : List PairDetail
  returned : Nat
  has_more : Bool
  total : Nat
deriving DecidableEq

/-- The pure query pipeline of `get_kraken_pairs` (lines after the
cache lookup): status filter, search filter, active count over the full
catalog, sort, slice `[offset, offset+limit)`, detail enrichment, and
the pagination block with `has_more = (offset + limit) < filtered`. -/
def queryPairs (pairs : PairCatalog) (status search : Option String)
    (offset limit : Nat) : PairsQueryResult :=
  let filtered := filteredPairs pairs status search
  let activePairs := pairs.filter (fun e => decide (e.2.status = some "online"))
  let sortedPairs := List.insertionSort strLe (filtered.map Prod.fst)
  let paginated := (sortedPairs.drop offset).take limit
  { total_pairs := pairs.length
    active_pairs := activePairs.length
    filtered_pairs := filtered.length
    pairs := paginated
    pairs_detail := paginated.map (pairDetailOf filtered)
    returned := paginated.length
    has_more := decide (offset + limit < filtered.length)
    total := filtered.length }

/-! ### Database layer (`database_client.py`, `TradingBotDatabase`)

The remote store itself is an external collaborator reached over a
prepared-statement protocol; its tables are modelled as lists of rows
and each statement by its effect on them, read off the SQL text in the
source.
-/

/-- A row of the `symbols` table, with the columns this code touches. -/
structure SymbolRow where
  symbol : String
  name : Option String
  exchange : Option String
  asset_type : Option String
  currency : Option String
  sector : Option String
  industry : Option String
  market_cap : Option ℚ
  is_active : Bool
deriving DecidableEq

/-- The update payload handed to `TradingBotDatabase.update_symbol`
(a Python dict read field-by-field with `.get`). -/
structure SymbolUpdate where
  name : Option String
  sector : Option String
  industry : Option String
  market_cap : Option ℚ
  is_active : Option Bool
deriving DecidableEq

/-- Method `TradingBotDatabase.update_symbol`: the statement
`UPDATE symbols SET name = $1, sector = $2, industry = $3,
market_cap = $4, updated_at = CURRENT_TIMESTAMP WHERE symbol = $5`
bound to `update_data.get("name")`, `.get("sector")`, `.get("industry")`,
`.get("market_cap")`.  Note the statement writes exactly these four
columns — an `is_active` entry of the payload is never read — and
writes them unconditionally, absent payload fields becoming NULL. -/
def updateSymbol (table : List SymbolRow) (symbol : String) (upd : SymbolUpdate) :
    List SymbolRow :=
  table.map (fun r =>
    if r.symbol = symbol then
      { r with
        name := upd.name
        sector := upd.sector
        industry := upd.industry
        market_cap := upd.market_cap }
    else r)

/-- Method `TradingBotDatabase.create_symbol`: INSERT of a new symbols row
from the payload dict (optional fields via `.get`, `is_active`
defaulting to true). -/
def createSymbolRow (symbol name exchange asset_type : String)
    (is_active : Bool) : SymbolRow :=
  { symbol := symbol
    name := some name
    exchange := some exchange
    asset_type := some asset_type
    currency := some "USD"
    sector := none
    industry := none
    market_cap := none
    is_active := is_active }

/-- Body of `sync_kraken_symbols` for one mapped pair that is
present in the exchange catalog: create the symbol when absent
(`name` from the catalog's `altname`, exchange "Kraken", asset type
"crypto", currency "USD", active iff the catalog status is "online");
otherwise, when the stored active flag disagrees with the catalog
status, call `update_symbol` with the payload `{"is_active": ...}`.
Returns the table and the (created, updated) count increments. -/
def syncPairStep (table : List SymbolRow) (dbSymbol : String) (pairInfo : PairInfo) :
    List SymbolRow × Nat × Nat :=
  match table.find? (fun r => decide (r.symbol = dbSymbol)) with
  | none =>
    (table ++ [createSymbolRow dbSymbol (pairInfo.altname.getD dbSymbol) "Kraken" "crypto"
        (decide (pairInfo.status = some "online"))], 1, 0)
  | some r =>
    if r.is_active ≠ decide (pairInfo.status = some "online") then
      (updateSymbol table dbSymbol
        { name := none, sector := none, industry := none, market_cap := none,
          is_active := some (decide (pairInfo.status = some "online")) }, 0, 1)
    else (table, 0, 0)

/-! ### OHLC ingestion (`main.py`, `fetch_kraken_ohlc`, insertion loop) -/

/-- The uniqueness key of a `market_data` row, from the source SQL:
`ON CONFLICT (symbol_id, t_stamp, time_frame, data_source)`. -/
structure MarketDataKey where
  symbol_id : ℤ
  t_stamp : ℤ
  time_frame : String
  data_source : String
deriving DecidableEq

/-- The idempotency key of a parsed record for a resolved symbol. -/
def mdKey (symbolId : ℤ) (d : MarketDataPoint) : MarketDataKey :=
  ⟨symbolId, d.timestamp, d.time_frame, d.data_source⟩

/-- A stored `market_data` row. -/
structure MarketDataRow where
  key : MarketDataKey
  «open» : ℚ
  high : ℚ
  low : ℚ
  close : ℚ
  volume : ℚ
  adjusted_close : ℚ
deriving DecidableEq

/-- Modelled from the spec: the remote relational store's handling of
`TradingBotDatabase.insert_market_data` is not part of this repository
(the store is reached over the prepared-statement protocol).  The
statement text in the source is
`INSERT INTO market_data ... ON CONFLICT (symbol_id, t_stamp,
time_frame, data_source) DO NOTHING RETURNING *`, and per the spec a
duplicate key is a silent no-op that does not increment the inserted
count: the call reports `true` and appends the row exactly when the key
is new, and reports `false` leaving the table unchanged on conflict. -/
def insertMarketData (store : List MarketDataRow) (symbolId : ℤ)
    (d : MarketDataPoint) : Bool × List MarketDataRow :=
  if store.any (fun r => decide (r.key = mdKey symbolId d)) then (false, store)
  else (true, store ++
    [⟨mdKey symbolId d, d.«open», d.high, d.low, d.close, d.volume, d.adjusted_close⟩])

/-- The counted outcome of the insertion loop of `fetch_kraken_ohlc`:
`records_fetched = len(parsed_data)` and `records_inserted` the number
of calls that reported success. -/
structure IngestResult where
  records_fetched : Nat
  records_inserted : Nat
  store : List MarketDataRow
deriving DecidableEq

/-- One iteration of the insertion loop of `fetch_kraken_ohlc`: insert
the record and increment the count when the call reports success. -/
def ingestStep (symbolId : ℤ) (acc : Nat × List MarketDataRow)
    (d : MarketDataPoint) : Nat × List MarketDataRow :=
  let step := insertMarketData acc.2 symbolId d
  (acc.1 + (if step.1 then 1 else 0), step.2)

/-- The insertion loop of `fetch_kraken_ohlc` (lines 690–694): insert
each parsed record, incrementing the count on success, and report both
the parsed-record count and the inserted count. -/
def ingestParsedBatch (store : List MarketDataRow) (symbolId : ℤ)
    (records : List MarketDataPoint) : IngestResult :=
  let final := records.foldl (ingestStep symbolId) (0, store)
  ⟨records.length, final.1, final.2⟩

/-! ### Redis cache wrapper (`shared/cache/redis_client.py`)

The key-value engine is external; the wrapper's own control flow is
what matters here: every operation first consults `is_connected()` and
degrades when it fails.  Values are held abstractly as strings and the
TTL is recorded but plays no further role in this model.
-/

/-- The cache client's observable state: whether `is_connected()`
succeeds, and the backing key-value store. -/
structure CacheState where
  connected : Bool
  store : List (String × String)
deriving DecidableEq

/-- Constant `RedisCache.KRAKEN_PAIRS_KEY`. -/
def KRAKEN_PAIRS_KEY : String := "trading_bot:kraken:pairs"

/-- Method `RedisCache.get`: `None` when not connected, else the stored value. -/
def cacheGet (s : CacheState) (key : String) : Option String :=
  if s.connected then ((s.store.find? (fun e => decide (e.1 = key))).map Prod.snd)
  else none

/-- Method `RedisCache.set`: `False` leaving the store untouched when not
connected, else store the value (with its TTL) and report `True`. -/
def cacheSet (s : CacheState) (key value : String) : Bool × CacheState :=
  if s.connected then
    (true, { s with store := (key, value) :: s.store.filter (fun e => decide (e.1 ≠ key)) })
  else (false, s)

/-- Method `RedisCache.delete`: `False` when not connected, else delete. -/
def cacheDelete (s : CacheState) (key : String) : Bool × CacheState :=
  if s.connected then
    (true, { s with store := s.store.filter (fun e => decide (e.1 ≠ key)) })
  else (false, s)

/-- Method `RedisCache.clear_pattern` for the prefix patterns this code uses
(`"trading_bot:kraken:pairs*"`): 0 with no change when not connected,
else delete the matching keys and report how many went away. -/
def cacheClearPrefix (s : CacheState) (prefixStr : String) : Nat × CacheState :=
  if s.connected then
    let remaining := s.store.filter (fun e => !listIsPrefixOf prefixStr.data e.1.data)
    (s.store.length - remaining.length, { s with store := remaining })
  else (0, s)

/-- Method `RedisCache.get_kraken_pairs`: `None` when not connected, else the
cached pairs blob. -/
def cacheGetKrakenPairs (s : CacheState) : Option String :=
  if s.connected then cacheGet s KRAKEN_PAIRS_KEY else none

/-- Method `RedisCache.set_kraken_pairs`: `False` when not connected, else the
`set` of the pairs blob under the pairs key. -/
def cacheSetKrakenPairs (s : CacheState) (pairsBlob : String) : Bool × CacheState :=
  if s.connected then cacheSet s KRAKEN_PAIRS_KEY pairsBlob else (false, s)

/-- Method `RedisCache.clear_kraken_pairs_cache`: `False` when not connected,
else clear by the pairs prefix and report `True`. -/
def cacheClearKrakenPairs (s : CacheState) : Bool × CacheState :=
  if s.connected then (true, (cacheClearPrefix s KRAKEN_PAIRS_KEY).2) else (false, s)

/-- Function `get_kraken_symbol_mapping`: Kraken pair code to database symbol. -/
def krakenSymbolMapping : List (String × String) :=
  [("XBTUSD", "BTC/USD"), ("XBTUSDT", "BTC/USDT"), ("ETHUSD", "ETH/USD"),
   ("ETHUSDT", "ETH/USDT"), ("ADAUSD", "ADA/USD"), ("ADAUSDT", "ADA/USDT"),
   ("SOLUSD", "SOL/USD"), ("SOLUSDT", "SOL/USDT"), ("DOTUSD", "DOT/USD"),
   ("DOTUSDT", "DOT/USDT"), ("MATICUSD", "MATIC/USD"), ("MATICUSDT", "MATIC/USDT"),
   ("LINKUSD", "LINK/USD"), ("LINKUSDT", "LINK/USDT"), ("AVAXUSD", "AVAX/USD"),
   ("AVAXUSDT", "AVAX/USDT"), ("ATOMUSD", "ATOM/USD"), ("ATOMUSDT", "ATOM/USDT"),
   ("ALGOUSD", "ALGO/USD"), ("ALGOUSDT", "ALGO/USDT")]

/-! ## Helper lemmas -/

theorem stringDataInj : ∀ {a b : String}, a.data = b.data → a = b := by
  intro a b h
  cases a
  cases b
  exact congrArg String.mk h

theorem charToNatInj : ∀ {a b : Char}, a.toNat = b.toNat → a = b := by
  intro a b h
  apply Char.ext
  exact UInt32.toNat.inj h

theorem lexLe_total : ∀ a b, lexLe a b = true ∨ lexLe b a = true := by
  intro a
  induction a with
  | nil => intro b; left; rfl
  | cons x xs ih =>
    intro b
    cases b with
    | nil => right; rfl
    | cons y ys =>
      by_cases h1 : x.toNat < y.toNat
      · left; simp [lexLe, h1]
      · by_cases h2 : y.toNat < x.toNat
        · right; simp [lexLe, h1, h2]
        · rcases ih ys with h | h
          · left; simp [lexLe, h1, h2, h]
          · right; simp [lexLe, h1, h2, h]

theorem lexLe_trans : ∀ a b c, lexLe a b = true → lexLe b c = true → lexLe a c = true := by
  intro a
  induction a with
  | nil => intro b c _ _; rfl
  | cons x xs ih =>
    intro b c hab hbc
    cases b with
    | nil => simp [lexLe] at hab
    | cons y ys =>
      cases c with
      | nil => simp [lexLe] at hbc
      | cons z zs =>
        simp only [lexLe] at hab hbc ⊢
        by_cases hxy : x.toNat < y.toNat
        · by_cases hyz : y.toNat < z.toNat
          · simp [show x.toNat < z.toNat by omega]
          · by_cases hzy : z.toNat < y.toNat
            · simp [hyz, hzy] at hbc
            · simp [show x.toNat < z.toNat by omega]
        · by_cases hyx : y.toNat < x.toNat
          · simp [hxy, hyx] at hab
          · by_cases hyz : y.toNat < z.toNat
            · simp [show x.toNat < z.toNat by omega]
            · by_cases hzy : z.toNat < y.toNat
              · simp [hyz, hzy] at hbc
              · have hxz : ¬ x.toNat < z.toNat := by omega
                have hzx : ¬ z.toNat < x.toNat := by omega
                simp [hxy, hyx] at hab
                simp [hyz, hzy] at hbc
                simp [hxz, hzx]
                exact ih ys zs hab hbc

theorem lexLe_antisymm : ∀ a b, lexLe a b = true → lexLe b a = true → a = b := by
  intro a
  induction a with
  | nil =>
    intro b _ hba
    cases b with
    | nil => rfl
    | cons y ys => simp [lexLe] at hba
  | cons x xs ih =>
    intro b hab hba
    cases b with
    | nil => simp [lexLe] at hab
    | cons y ys =>
      simp only [lexLe] at hab hba
      by_cases hxy : x.toNat < y.toNat
      · simp [hxy, show ¬ y.toNat < x.toNat by omega] at hba
      · by_cases hyx : y.toNat < x.toNat
        · simp [hxy, hyx] at hab
        · simp [hxy, hyx] at hab hba
          have hx : x = y := charToNatInj (by omega)
          rw [hx, ih ys hab hba]

instance : IsTotal String strLe := ⟨fun a b => lexLe_total a.data b.data⟩

instance : IsTrans String strLe := ⟨fun a b c => lexLe_trans a.data b.data c.data⟩

instance : IsAntisymm String strLe :=
  ⟨fun a b hab hba => stringDataInj (lexLe_antisymm a.data b.data hab hba)⟩

/-! ## Claims -/

/-- C8: `normalize_pair` strips the `/` and `-` separators, upper-cases,
then rewrites through the static alias table, falling back to the
cleaned input unchanged; in particular `normalize_pair` sends
"BTC/USD", "btcusd" and "BTC-USD" to the same XBT-based native code
"XBTUSD". -/
theorem c8_normalize_pair :
    (normalizePair "BTC/USD" = "XBTUSD" ∧ normalizePair "btcusd" = "XBTUSD" ∧
      normalizePair "BTC-USD" = "XBTUSD") ∧
    (∀ p, pairMappings.find? (fun e => decide (e.1 = cleanPair p)) = none →
      normalizePair p = cleanPair p) ∧
    (∀ p, normalizePair p = cleanPair p ∨ (cleanPair p, normalizePair p) ∈ pairMappings) := by
  refine ⟨⟨by decide, by decide, by decide⟩, ?_, ?_⟩
  · intro p h
    simp [normalizePair, h]
  · intro p
    rcases hfind : pairMappings.find? (fun e => decide (e.1 = cleanPair p)) with _ | e
    · left; simp [normalizePair, hfind]
    · right
      have hmem : e ∈ pairMappings := List.mem_of_find?_eq_some hfind
      have hkey : e.1 = cleanPair p := by
        have := List.find?_some hfind
        simpa using this
      have : normalizePair p = e.2 := by simp [normalizePair, hfind]
      rw [this, ← hkey]
      exact hmem

/-- Witness for C8: the fallback branch at a pair code outside the alias
table. -/
theorem c8_normalize_pair_witness : normalizePair "DOGEUSD" = cleanPair "DOGEUSD" :=
  c8_normalize_pair.2.1 "DOGEUSD" (by decide)

/-- C9: whenever the cache store is unavailable (`is_connected()` false),
every cache read returns the miss result and every cache write returns
`false` as a silent no-op leaving the store untouched; none of these
operations surfaces an error (each is total and returns its degraded
value). -/
theorem c9_cache_unavailable (s : CacheState) (k v blob pat : String)
    (h : s.connected = false) :
    cacheGet s k = none ∧ cacheGetKrakenPairs s = none ∧
    cacheSet s k v = (false, s) ∧ cacheDelete s k = (false, s) ∧
    cacheClearPrefix s pat = (0, s) ∧ cacheSetKrakenPairs s blob = (false, s) ∧
    cacheClearKrakenPairs s = (false, s) := by
  simp [cacheGet, cacheGetKrakenPairs, cacheSet, cacheDelete, cacheClearPrefix,
    cacheSetKrakenPairs, cacheClearKrakenPairs, h]

/-- Witness for C9: a disconnected cache holding one stale entry. -/
theorem c9_cache_unavailable_witness :
    cacheGet ⟨false, [("trading_bot:kraken:pairs", "blob")]⟩ "trading_bot:kraken:pairs" = none ∧
    cacheGetKrakenPairs ⟨false, [("trading_bot:kraken:pairs", "blob")]⟩ = none ∧
    cacheSet ⟨false, [("trading_bot:kraken:pairs", "blob")]⟩ "k" "v" =
      (false, ⟨false, [("trading_bot:kraken:pairs", "blob")]⟩) ∧
    cacheDelete ⟨false, [("trading_bot:kraken:pairs", "blob")]⟩ "k" =
      (false, ⟨false, [("trading_bot:kraken:pairs", "blob")]⟩) ∧
    cacheClearPrefix ⟨false, [("trading_bot:kraken:pairs", "blob")]⟩ "trading_bot:kraken:pairs" =
      (0, ⟨false, [("trading_bot:kraken:pairs", "blob")]⟩) ∧
    cacheSetKrakenPairs ⟨false, [("trading_bot:kraken:pairs", "blob")]⟩ "blob2" =
      (false, ⟨false, [("trading_bot:kraken:pairs", "blob")]⟩) ∧
    cacheClearKrakenPairs ⟨false, [("trading_bot:kraken:pairs", "blob")]⟩ =
      (false, ⟨false, [("trading_bot:kraken:pairs", "blob")]⟩) :=
  c9_cache_unavailable ⟨false, [("trading_bot:kraken:pairs", "blob")]⟩
    "trading_bot:kraken:pairs" "v" "blob2" "trading_bot:kraken:pairs" rfl

/-- C3 counterexample: `parse_ohlc_data` performs no validation, so a raw
row with 8 fields whose high field (index 2) is below its open field
(index 1) parses to a record violating `high ≥ max(open, low, close)`;
the claim as stated ("for any valid raw OHLC row", valid meaning at
least 8 fields) is false at this input. -/
theorem c3_counterexample :
    parseOhlcData [[0, 100, 50, 10, 20, 0, 5, 1]] "1h" "XBTUSD" =
      [⟨0, 100, 50, 10, 20, 5, 20, "1h", "kraken", "XBTUSD"⟩] ∧
    ¬ (∀ r ∈ parseOhlcData [[0, 100, 50, 10, 20, 0, 5, 1]] "1h" "XBTUSD",
        (r.«open» ≤ r.high ∧ r.low ≤ r.high ∧ r.close ≤ r.high) ∧
        (r.low ≤ r.«open» ∧ r.low ≤ r.close ∧ r.low ≤ r.high)) := by
  constructor
  · decide
  · intro hall
    have hmem : (⟨0, 100, 50, 10, 20, 5, 20, "1h", "kraken", "XBTUSD"⟩ : MarketDataPoint) ∈
        parseOhlcData [[0, 100, 50, 10, 20, 0, 5, 1]] "1h" "XBTUSD" := by decide
    have := (hall _ hmem).1.1
    norm_num at this

/-- C3 (amended): `parse_ohlc_data` copies the fields positionally
without enforcing anything, so for any raw row with at least 8 fields
whose fields already satisfy `high ≥ max(open, low, close)` and
`low ≤ min(open, close, high)`, the produced record satisfies the same
bounds (the parser preserves, but does not establish, the invariant). -/
theorem c3_parse_preserves_invariant (rows : List (List ℚ)) (tf p : String)
    (hinv : ∀ row ∈ rows, 8 ≤ row.length →
      (row.getD 1 0 ≤ row.getD 2 0 ∧ row.getD 3 0 ≤ row.getD 2 0 ∧
        row.getD 4 0 ≤ row.getD 2 0) ∧
      (row.getD 3 0 ≤ row.getD 1 0 ∧ row.getD 3 0 ≤ row.getD 4 0 ∧
        row.getD 3 0 ≤ row.getD 2 0)) :
    ∀ r ∈ parseOhlcData rows tf p,
      (r.«open» ≤ r.high ∧ r.low ≤ r.high ∧ r.close ≤ r.high) ∧
      (r.low ≤ r.«open» ∧ r.low ≤ r.close ∧ r.low ≤ r.high) := by
  intro r hr
  rw [parseOhlcData, List.mem_filterMap] at hr
  obtain ⟨row, hrow, hparse⟩ := hr
  rw [parseOhlcRow] at hparse
  split at hparse
  · exact absurd hparse (by simp)
  · next hlen =>
    obtain rfl := Option.some.inj hparse
    exact hinv row hrow (by omega)

/-- Witness for C3 (amended): a well-formed raw row satisfying the
bounds parses to a record satisfying them. -/
theorem c3_parse_preserves_invariant_witness :
    ((⟨1700000000, 100, 110, 95, 105, 50, 105, "1h", "kraken", "XBTUSD"⟩ :
        MarketDataPoint).«open» ≤
      (⟨1700000000, 100, 110, 95, 105, 50, 105, "1h", "kraken", "XBTUSD"⟩ :
        MarketDataPoint).high ∧
      (⟨1700000000, 100, 110, 95, 105, 50, 105, "1h", "kraken", "XBTUSD"⟩ :
        MarketDataPoint).low ≤
      (⟨1700000000, 100, 110, 95, 105, 50, 105, "1h", "kraken", "XBTUSD"⟩ :
        MarketDataPoint).high ∧
      (⟨1700000000, 100, 110, 95, 105, 50, 105, "1h", "kraken", "XBTUSD"⟩ :
        MarketDataPoint).close ≤
      (⟨1700000000, 100, 110, 95, 105, 50, 105, "1h", "kraken", "XBTUSD"⟩ :
        MarketDataPoint).high) ∧
    ((⟨1700000000, 100, 110, 95, 105, 50, 105, "1h", "kraken", "XBTUSD"⟩ :
        MarketDataPoint).low ≤
      (⟨1700000000, 100, 110, 95, 105, 50, 105, "1h", "kraken", "XBTUSD"⟩ :
        MarketDataPoint).«open» ∧
      (⟨1700000000, 100, 110, 95, 105, 50, 105, "1h", "kraken", "XBTUSD"⟩ :
        MarketDataPoint).low ≤
      (⟨1700000000, 100, 110, 95, 105, 50, 105, "1h", "kraken", "XBTUSD"⟩ :
        MarketDataPoint).close ∧
      (⟨1700000000, 100, 110, 95, 105, 50, 105, "1h", "kraken", "XBTUSD"⟩ :
        MarketDataPoint).low ≤
      (⟨1700000000, 100, 110, 95, 105, 50, 105, "1h", "kraken", "XBTUSD"⟩ :
        MarketDataPoint).high) :=
  c3_parse_preserves_invariant [[1700000000, 100, 110, 95, 105, 102, 50, 20]]
    "1h" "XBTUSD" (by decide)
    ⟨1700000000, 100, 110, 95, 105, 50, 105, "1h", "kraken", "XBTUSD"⟩ (by decide)

/-- C7: `parse_ohlc_data` silently drops every row shorter than 8
fields; each kept record reads its timestamp from field 0 as truncated
epoch seconds, its volume from field index 6, and copies close into
adjusted_close; and on the concrete row
`[1700000000, "100", "110", "95", "105", "102", "50", "20"]` with
timeframe "1h" it produces exactly the claimed record, whose epoch
timestamp renders as the UTC instant 2023-11-14T22:13:20Z. -/
theorem c7_parse_ohlc :
    (∀ (row : List ℚ) rows tf p, row.length < 8 →
      parseOhlcData (row :: rows) tf p = parseOhlcData rows tf p) ∧
    (∀ rows tf p, (parseOhlcData rows tf p).length =
      (rows.filter (fun r => decide (8 ≤ r.length))).length) ∧
    (∀ rows tf p, ∀ r ∈ parseOhlcData rows tf p, ∃ row ∈ rows,
      8 ≤ row.length ∧ r.timestamp = pyIntTrunc (row.getD 0 0) ∧
      r.volume = row.getD 6 0 ∧ r.adjusted_close = r.close ∧ r.time_frame = tf) ∧
    (parseOhlcData [[1700000000, 100, 110, 95, 105, 102, 50, 20]] "1h" "XBTUSD" =
      [⟨1700000000, 100, 110, 95, 105, 50, 105, "1h", "kraken", "XBTUSD"⟩]) ∧
    epochToUTC 1700000000 = ⟨2023, 11, 14, 22, 13, 20⟩ := by
  refine ⟨?_, ?_, ?_, by decide, by decide⟩
  · intro row rows tf p h
    simp [parseOhlcData, parseOhlcRow, h]
  · intro rows tf p
    induction rows with
    | nil => rfl
    | cons row rest ih =>
      by_cases h : row.length < 8
      · have h8 : ¬ 8 ≤ row.length := by omega
        simp [parseOhlcData, parseOhlcRow, List.filter_cons, h, h8] at ih ⊢
        exact ih
      · have h8 : 8 ≤ row.length := by omega
        simp [parseOhlcData, parseOhlcRow, List.filter_cons, h, h8] at ih ⊢
        exact ih
  · intro rows tf p r hr
    rw [parseOhlcData, List.mem_filterMap] at hr
    obtain ⟨row, hrow, hparse⟩ := hr
    rw [parseOhlcRow] at hparse
    split at hparse
    · exact absurd hparse (by simp)
    · next hlen =>
      obtain rfl := Option.some.inj hparse
      exact ⟨row, hrow, by omega, rfl, rfl, rfl, rfl⟩

/-- Witness for C7: a 2-field row is dropped. -/
theorem c7_parse_ohlc_witness :
    parseOhlcData [[(1700000000 : ℚ), 100]] "1h" "XBTUSD" =
      parseOhlcData [] "1h" "XBTUSD" :=
  c7_parse_ohlc.1 [(1700000000 : ℚ), 100] [] "1h" "XBTUSD" (by decide)

/-- C6: `parse_ticker_data` produces a non-null `change_percent_24h`
exactly when the guarded coercion of the reference open price yields a
positive value — in particular a missing `o` field, and a present but
non-numeric `o` string, give null — and on the concrete payload
`{a:["101","1","1"], b:["99","1","1"], c:["100","5"], v:["10","500"],
h:["105","95"], o:"90"}` it produces price 100, ask 101, bid 99,
volume 500, change 10 and change percent (100-90)/90·100 = 100/9. -/
theorem c6_change_percent :
    (∀ (t : TickerRaw) (pair : String),
      ((parseTickerData t pair).change_percent_24h).isSome = true ↔
        ∃ q, openCoerced t = some q ∧ 0 < q) ∧
    (∀ (t : TickerRaw) (pair : String), t.o = none →
      (parseTickerData t pair).change_percent_24h = none) ∧
    (∀ (t : TickerRaw) (pair : String) (s : String), t.o = some (.pstr s) →
      pyFloatOfString s = none → (parseTickerData t pair).change_percent_24h = none) ∧
    parseTickerData
        ⟨some [101, 1, 1], some [99, 1, 1], some [100, 5], some [10, 500],
          some [105, 95], some (.pstr "90")⟩ "XBTUSD" =
      ⟨100, some 99, some 101, some 500, some 10, some (100 / 9), "kraken", "XBTUSD"⟩ := by
  refine ⟨?_, ?_, ?_, ?_⟩
  · intro t pair
    rcases h : openCoerced t with _ | q
    · simp [parseTickerData, h]
    · by_cases hq : 0 < q
      · simp [parseTickerData, h, hq]
      · simp [parseTickerData, h, hq]
  · intro t pair h
    simp [parseTickerData, openCoerced, h, pyTruthy]
  · intro t pair s h hfail
    by_cases hs : s = "" <;>
      simp [parseTickerData, openCoerced, pyTruthy, pyFloatOfScalar, h, hfail, hs]
  · have h90 : pyFloatOfString "90" = some 90 := by
      have hp : parseDecimalChars "90".data = some ⟨false, 90, 0, 0⟩ := by decide
      simp [pyFloatOfString, hp, pyDecValue]
    have hopen : openCoerced
        ⟨some [101, 1, 1], some [99, 1, 1], some [100, 5], some [10, 500],
          some [105, 95], some (.pstr "90")⟩ = some 90 := by
      simp [openCoerced, pyTruthy, pyFloatOfScalar, h90]
    simp [parseTickerData, hopen, pyIntTrunc]
    norm_num

/-- Witness for C6: a ticker payload with no `o` field parses to a null
24h percent change. -/
theorem c6_change_percent_witness :
    (parseTickerData ⟨some [101, 1, 1], some [99, 1, 1], some [100, 5],
        some [10, 500], some [105, 95], none⟩ "XBTUSD").change_percent_24h = none :=
  c6_change_percent.2.1
    ⟨some [101, 1, 1], some [99, 1, 1], some [100, 5], some [10, 500],
      some [105, 95], none⟩ "XBTUSD" rfl

/-- C10: `parse_ticker_data` reports `volume_24h` as null when the `v`
sub-array is missing, when it has fewer than two elements, and when its
second element is zero — a reported 24h volume of exactly zero is
indistinguishable from missing volume data in the parsed record. -/
theorem c10_zero_volume (t : TickerRaw) (pair : String) :
    (t.v = none → (parseTickerData t pair).volume_24h = none) ∧
    ((t.v.getD [0, 0]).length < 2 → (parseTickerData t pair).volume_24h = none) ∧
    (∀ l, t.v = some l → 2 ≤ l.length → l.getD 1 0 = 0 →
      (parseTickerData t pair).volume_24h = none) := by
  refine ⟨?_, ?_, ?_⟩
  · intro h
    simp [parseTickerData, h]
  · intro h
    simp [parseTickerData, show ¬ 1 < (t.v.getD [0, 0]).length by omega]
  · intro l h hlen hz
    simp [parseTickerData, h, show 1 < l.length by omega, hz]
    rwa [List.getD_eq_getElem l 0 (show 1 < l.length by omega)] at hz

/-- Witness for C10: a payload reporting a 24h volume of exactly zero
parses to a null volume. -/
theorem c10_zero_volume_witness :
    (parseTickerData ⟨none, none, none, some [10, 0], none, none⟩ "XBTUSD").volume_24h =
      none :=
  (c10_zero_volume ⟨none, none, none, some [10, 0], none, none⟩ "XBTUSD").2.2
    [10, 0] rfl (by decide) (by decide)

theorem insertMarketData_dup (store : List MarketDataRow) (sid : ℤ)
    (d : MarketDataPoint) (h : mdKey sid d ∈ store.map MarketDataRow.key) :
    insertMarketData store sid d = (false, store) := by
  rw [insertMarketData, if_pos]
  rw [List.any_eq_true]
  obtain ⟨r, hr, hkey⟩ := List.mem_map.mp h
  exact ⟨r, hr, by simp [hkey]⟩

theorem insertMarketData_key_mem (store : List MarketDataRow) (sid : ℤ)
    (d : MarketDataPoint) :
    mdKey sid d ∈ (insertMarketData store sid d).2.map MarketDataRow.key := by
  rw [insertMarketData]
  split
  · next h =>
    rw [List.any_eq_true] at h
    obtain ⟨r, hr, hkey⟩ := h
    exact List.mem_map.mpr ⟨r, hr, by simpa using hkey⟩
  · simp

theorem insertMarketData_mono (store : List MarketDataRow) (sid : ℤ)
    (d : MarketDataPoint) (k : MarketDataKey)
    (h : k ∈ store.map MarketDataRow.key) :
    k ∈ (insertMarketData store sid d).2.map MarketDataRow.key := by
  rw [insertMarketData]
  split
  · exact h
  · rw [List.map_append]
    exact List.mem_append_left _ h

theorem ingestStep_mono (sid : ℤ) (acc : Nat × List MarketDataRow)
    (d : MarketDataPoint) (k : MarketDataKey)
    (h : k ∈ acc.2.map MarketDataRow.key) :
    k ∈ (ingestStep sid acc d).2.map MarketDataRow.key :=
  insertMarketData_mono acc.2 sid d k h

theorem ingestStep_adds (sid : ℤ) (acc : Nat × List MarketDataRow)
    (d : MarketDataPoint) :
    mdKey sid d ∈ (ingestStep sid acc d).2.map MarketDataRow.key :=
  insertMarketData_key_mem acc.2 sid d

theorem ingestStep_dup (sid : ℤ) (acc : Nat × List MarketDataRow)
    (d : MarketDataPoint) (h : mdKey sid d ∈ acc.2.map MarketDataRow.key) :
    ingestStep sid acc d = acc := by
  unfold ingestStep
  rw [insertMarketData_dup acc.2 sid d h]
  simp

theorem foldl_ingest_mono (sid : ℤ) :
    ∀ (records : List MarketDataPoint) (acc : Nat × List MarketDataRow)
      (k : MarketDataKey), k ∈ acc.2.map MarketDataRow.key →
      k ∈ (records.foldl (ingestStep sid) acc).2.map MarketDataRow.key := by
  intro records
  induction records with
  | nil => intro acc k h; exact h
  | cons d ds ih =>
    intro acc k h
    exact ih (ingestStep sid acc d) k (ingestStep_mono sid acc d k h)

theorem foldl_ingest_contains (sid : ℤ) :
    ∀ (records : List MarketDataPoint) (acc : Nat × List MarketDataRow),
      ∀ d ∈ records,
        mdKey sid d ∈ (records.foldl (ingestStep sid) acc).2.map MarketDataRow.key := by
  intro records
  induction records with
  | nil => intro acc d h; exact absurd h (List.not_mem_nil d)
  | cons e es ih =>
    intro acc d h
    rcases List.mem_cons.mp h with rfl | h2
    · exact foldl_ingest_mono sid es (ingestStep sid acc d) _ (ingestStep_adds sid acc d)
    · exact ih (ingestStep sid acc e) d h2

theorem foldl_ingest_all_dup (sid : ℤ) :
    ∀ (records : List MarketDataPoint) (acc : Nat × List MarketDataRow),
      (∀ d ∈ records, mdKey sid d ∈ acc.2.map MarketDataRow.key) →
      records.foldl (ingestStep sid) acc = acc := by
  intro records
  induction records with
  | nil => intro acc _; rfl
  | cons d ds ih =>
    intro acc h
    rw [List.foldl_cons, ingestStep_dup sid acc d (h d (List.mem_cons_self d ds))]
    exact ih acc (fun e he => h e (List.mem_cons_of_mem d he))

/-- C1: an OHLC insert whose idempotency key (symbol id, timestamp,
timeframe, source) is already stored is a silent no-op reporting false,
so it does not increment the inserted count; consequently re-ingesting
an identical already-stored batch returns `records_inserted = 0` and an
unchanged store, while `records_fetched` stays the number of parsed
records. -/
theorem c1_ingest_idempotent (store : List MarketDataRow) (sid : ℤ)
    (records : List MarketDataPoint) (d : MarketDataPoint)
    (hdup : mdKey sid d ∈ store.map MarketDataRow.key) :
    insertMarketData store sid d = (false, store) ∧
    (ingestParsedBatch (ingestParsedBatch store sid records).store sid
      records).records_inserted = 0 ∧
    (ingestParsedBatch (ingestParsedBatch store sid records).store sid
      records).records_fetched = records.length ∧
    (ingestParsedBatch (ingestParsedBatch store sid records).store sid
      records).store = (ingestParsedBatch store sid records).store := by
  have hall : ∀ e ∈ records, mdKey sid e ∈
      (ingestParsedBatch store sid records).store.map MarketDataRow.key :=
    fun e he => foldl_ingest_contains sid records (0, store) e he
  have hfold : records.foldl (ingestStep sid)
      (0, (ingestParsedBatch store sid records).store) =
      (0, (ingestParsedBatch store sid records).store) :=
    foldl_ingest_all_dup sid records _ hall
  refine ⟨insertMarketData_dup store sid d hdup, ?_, rfl, ?_⟩
  · show (records.foldl (ingestStep sid)
      (0, (ingestParsedBatch store sid records).store)).1 = 0
    rw [hfold]
  · show (records.foldl (ingestStep sid)
      (0, (ingestParsedBatch store sid records).store)).2 = _
    rw [hfold]

/-- Witness for C1: re-ingesting a one-record batch that is already in
the store inserts nothing and leaves the store unchanged. -/
theorem c1_ingest_idempotent_witness :
    insertMarketData
        [⟨⟨1, 1700000000, "1h", "kraken"⟩, 100, 110, 95, 105, 50, 105⟩] 1
        ⟨1700000000, 100, 110, 95, 105, 50, 105, "1h", "kraken", "XBTUSD"⟩ =
      (false, [⟨⟨1, 1700000000, "1h", "kraken"⟩, 100, 110, 95, 105, 50, 105⟩]) ∧
    (ingestParsedBatch
      (ingestParsedBatch
        [⟨⟨1, 1700000000, "1h", "kraken"⟩, 100, 110, 95, 105, 50, 105⟩] 1
        [⟨1700000000, 100, 110, 95, 105, 50, 105, "1h", "kraken", "XBTUSD"⟩]).store 1
      [⟨1700000000, 100, 110, 95, 105, 50, 105, "1h", "kraken", "XBTUSD"⟩]).records_inserted = 0 ∧
    (ingestParsedBatch
      (ingestParsedBatch
        [⟨⟨1, 1700000000, "1h", "kraken"⟩, 100, 110, 95, 105, 50, 105⟩] 1
        [⟨1700000000, 100, 110, 95, 105, 50, 105, "1h", "kraken", "XBTUSD"⟩]).store 1
      [⟨1700000000, 100, 110, 95, 105, 50, 105, "1h", "kraken", "XBTUSD"⟩]).records_fetched =
        [(⟨1700000000, 100, 110, 95, 105, 50, 105, "1h", "kraken", "XBTUSD"⟩ : MarketDataPoint)].length ∧
    (ingestParsedBatch
      (ingestParsedBatch
        [⟨⟨1, 1700000000, "1h", "kraken"⟩, 100, 110, 95, 105, 50, 105⟩] 1
        [⟨1700000000, 100, 110, 95, 105, 50, 105, "1h", "kraken", "XBTUSD"⟩]).store 1
      [⟨1700000000, 100, 110, 95, 105, 50, 105, "1h", "kraken", "XBTUSD"⟩]).store =
      (ingestParsedBatch
        [⟨⟨1, 1700000000, "1h", "kraken"⟩, 100, 110, 95, 105, 50, 105⟩] 1
        [⟨1700000000, 100, 110, 95, 105, 50, 105, "1h", "kraken", "XBTUSD"⟩]).store :=
  c1_ingest_idempotent
    [⟨⟨1, 1700000000, "1h", "kraken"⟩, 100, 110, 95, 105, 50, 105⟩] 1
    [⟨1700000000, 100, 110, 95, 105, 50, 105, "1h", "kraken", "XBTUSD"⟩]
    ⟨1700000000, 100, 110, 95, 105, 50, 105, "1h", "kraken", "XBTUSD"⟩
    (by decide)

/-- C2 (code bug): for a stored symbol whose active flag disagrees with
the catalog status, the sync loop calls `update_symbol` with the
payload `{"is_active": ...}` — but `update_symbol`'s UPDATE statement
writes only name, sector, industry and market_cap and never reads
`is_active`.  The issued update therefore leaves the active flag
unchanged and overwrites the other stored fields with NULL, contrary to
the claim (update only the active flag, leave the rest unchanged).
Here the stored row is active while the catalog reports "cancel_only":
the update counter increments, yet `is_active` stays true and name,
sector, industry and market_cap are nulled. -/
theorem c2_sync_update_clobbers :
    syncPairStep
        [⟨"BTC/USD", some "Bitcoin", some "Kraken", some "crypto", some "USD",
          some "Technology", some "Currency", some 1000000, true⟩]
        "BTC/USD" ⟨none, some "XBTUSD", some "XBT", some "USD", some "cancel_only"⟩ =
      ([⟨"BTC/USD", none, some "Kraken", some "crypto", some "USD",
          none, none, none, true⟩], 0, 1) ∧
    syncPairStep
        [⟨"BTC/USD", some "Bitcoin", some "Kraken", some "crypto", some "USD",
          some "Technology", some "Currency", some 1000000, true⟩]
        "BTC/USD" ⟨none, some "XBTUSD", some "XBT", some "USD", some "cancel_only"⟩ ≠
      ([⟨"BTC/USD", some "Bitcoin", some "Kraken", some "crypto", some "USD",
          some "Technology", some "Currency", some 1000000, false⟩], 0, 1) := by
  constructor
  · decide
  · decide

theorem mem_searchTerms_iff (s term : String) :
    term ∈ searchTerms s ↔ specIsSearchTerm s term := by
  by_cases hd : strContains (strLower s) "doge" = true <;>
  by_cases hb : strContains (strLower s) "btc" = true <;>
  by_cases hx : strContains (strLower s) "xbt" = true <;>
    simp [searchTerms, specIsSearchTerm, hd, hb, hx, List.mem_append,
      Bool.not_eq_true]

theorem entryMatches_iff (s name : String) (info : PairInfo) :
    entryMatches (searchTerms s) name info = true ↔ specMatchesSearch s name info := by
  rw [entryMatches, List.any_eq_true]
  constructor
  · rintro ⟨term, hterm, hmatch⟩
    refine ⟨term, (mem_searchTerms_iff s term).mp hterm, ?_⟩
    simp only [Bool.or_eq_true] at hmatch
    rcases hmatch with (((h | h) | h) | h) | h
    · exact ⟨name, by simp, h⟩
    · exact ⟨info.wsname.getD "", by simp, h⟩
    · exact ⟨info.altname.getD "", by simp, h⟩
    · exact ⟨info.base.getD "", by simp, h⟩
    · exact ⟨info.quote.getD "", by simp, h⟩
  · rintro ⟨term, hterm, f, hf, hmatch⟩
    refine ⟨term, (mem_searchTerms_iff s term).mpr hterm, ?_⟩
    simp only [Bool.or_eq_true]
    simp only [List.mem_cons, List.not_mem_nil, or_false] at hf
    rcases hf with rfl | rfl | rfl | rfl | rfl <;> tauto

/-- C5: for any non-empty search term, the search filter keeps exactly
the entries for which some expanded term — the lower-cased input, plus
"xdg" when it contains "doge", plus "xbt" when it contains "btc" but
not "xbt" — occurs case-insensitively in the native code, display name,
alt name, base asset or quote asset; in particular a search for "doge"
keeps every entry whose native code contains "xdg". -/
theorem c5_search_alias (pairs : PairCatalog) (s : String) (hs : s ≠ "") :
    (∀ e, e ∈ searchFiltered pairs (some s) ↔
      e ∈ pairs ∧ specMatchesSearch s e.1 e.2) ∧
    (∀ e ∈ pairs, strContains (strLower e.1) "xdg" = true →
      e ∈ searchFiltered pairs (some "doge")) := by
  constructor
  · intro e
    have hform : searchFiltered pairs (some s) =
        pairs.filter (fun e => entryMatches (searchTerms s) e.1 e.2) := by
      simp [searchFiltered, hs]
    rw [hform, List.mem_filter]
    exact and_congr_right fun _ => entryMatches_iff s e.1 e.2
  · intro e he hx
    have hform : searchFiltered pairs (some "doge") =
        pairs.filter (fun e => entryMatches (searchTerms "doge") e.1 e.2) := by
      simp [searchFiltered]
    rw [hform, List.mem_filter]
    refine ⟨he, ?_⟩
    rw [entryMatches, List.any_eq_true]
    refine ⟨"xdg", by decide, ?_⟩
    simp [hx]

/-- Witness for C5: a catalog whose single entry has native code
"XDGUSD" is matched by a search for "doge". -/
theorem c5_search_alias_witness :
    ("XDGUSD", (⟨none, none, none, none, some "online"⟩ : PairInfo)) ∈
      searchFiltered [("XDGUSD", ⟨none, none, none, none, some "online"⟩)]
        (some "doge") :=
  (c5_search_alias [("XDGUSD", ⟨none, none, none, none, some "online"⟩)] "doge"
    (by decide)).2 ("XDGUSD", ⟨none, none, none, none, some "online"⟩)
    (by decide) (by decide)

/-- C4: for every catalog, status filter, search term, offset N and
limit M ≥ 1, the query's `pairs` slice is exactly positions [N, N+M) of
the filtered key set in its unique ascending lexicographic order (any
sorted permutation L of the filtered keys agrees with it); an offset at
or beyond the filtered count yields the empty slice; and `has_more`
holds exactly when N + M is below the filtered total. -/
theorem c4_pagination (pairs : PairCatalog) (status search : Option String)
    (N M : Nat) (_hM : 1 ≤ M) (L : List String)
    (hperm : L.Perm ((filteredPairs pairs status search).map Prod.fst))
    (hsort : L.Sorted strLe) :
    (queryPairs pairs status search N M).pairs = (L.drop N).take M ∧
    ((filteredPairs pairs status search).length ≤ N →
      (queryPairs pairs status search N M).pairs = []) ∧
    ((queryPairs pairs status search N M).has_more = true ↔
      N + M < (filteredPairs pairs status search).length) := by
  have hsorted : List.Sorted strLe
      (List.insertionSort strLe ((filteredPairs pairs status search).map Prod.fst)) :=
    List.sorted_insertionSort strLe _
  have hperm2 :
      (List.insertionSort strLe ((filteredPairs pairs status search).map Prod.fst)).Perm
        ((filteredPairs pairs status search).map Prod.fst) :=
    List.perm_insertionSort strLe _
  have hL : L = List.insertionSort strLe ((filteredPairs pairs status search).map Prod.fst) :=
    List.eq_of_perm_of_sorted (hperm.trans hperm2.symm) hsort hsorted
  have hpairs : (queryPairs pairs status search N M).pairs =
      ((List.insertionSort strLe
        ((filteredPairs pairs status search).map Prod.fst)).drop N).take M := rfl
  refine ⟨?_, ?_, ?_⟩
  · rw [hpairs, ← hL]
  · intro hle
    rw [hpairs]
    have hlen : (List.insertionSort strLe
        ((filteredPairs pairs status search).map Prod.fst)).length =
        (filteredPairs pairs status search).length := by
      rw [hperm2.length_eq, List.length_map]
    rw [List.drop_eq_nil_of_le (by rw [hlen]; exact hle), List.take_nil]
  · have hmore : (queryPairs pairs status search N M).has_more =
        decide (N + M < (filteredPairs pairs status search).length) := rfl
    rw [hmore]
    exact decide_eq_true_iff

/-- Witness for C4: the spec's concrete two-pair catalog, status
"online", no search, offset 0, limit 1, with L the sorted keys. -/
theorem c4_pagination_witness :
    (queryPairs
        [("XBTUSD", ⟨none, some "XBTUSD", some "XBT", some "USD", some "online"⟩),
         ("ETHUSD", ⟨none, some "ETHUSD", some "ETH", some "USD", some "online"⟩)]
        (some "online") none 0 1).pairs = (["ETHUSD", "XBTUSD"].drop 0).take 1 ∧
    ((filteredPairs
        [("XBTUSD", ⟨none, some "XBTUSD", some "XBT", some "USD", some "online"⟩),
         ("ETHUSD", ⟨none, some "ETHUSD", some "ETH", some "USD", some "online"⟩)]
        (some "online") none).length ≤ 0 →
      (queryPairs
        [("XBTUSD", ⟨none, some "XBTUSD", some "XBT", some "USD", some "online"⟩),
         ("ETHUSD", ⟨none, some "ETHUSD", some "ETH", some "USD", some "online"⟩)]
        (some "online") none 0 1).pairs = []) ∧
    ((queryPairs
        [("XBTUSD", ⟨none, some "XBTUSD", some "XBT", some "USD", some "online"⟩),
         ("ETHUSD", ⟨none, some "ETHUSD", some "ETH", some "USD", some "online"⟩)]
        (some "online") none 0 1).has_more = true ↔
      0 + 1 < (filteredPairs
        [("XBTUSD", ⟨none, some "XBTUSD", some "XBT", some "USD", some "online"⟩),
         ("ETHUSD", ⟨none, some "ETHUSD", some "ETH", some "USD", some "online"⟩)]
        (some "online") none).length) :=
  c4_pagination
    [("XBTUSD", ⟨none, some "XBTUSD", some "XBT", some "USD", some "online"⟩),
     ("ETHUSD", ⟨none, some "ETHUSD", some "ETH", some "USD", some "online"⟩)]
    (some "online") none 0 1 (by decide) ["ETHUSD", "XBTUSD"] (by decide) (by decide)

end TradingBot
